import Mathlib

/-!
Shallow embedding of the rusty-vm C++ virtual machine core
(`src/vm/src/processor.cpp`, with the opcode enumeration of
`src/vm_cpp/headers/byte_code.hh`, the register enumeration of
`src/c++/headers/registers.hh` and the memory primitives of
`src/c++/src/memory.cpp`).

Machine integers are modelled as `Nat` with explicit reduction modulo
`2 ^ 64` (registers) or `2 ^ 8` (bytes).  Multi-byte integers use the
host's little-endian byte order, as the source does via pointer casts.
C++ undefined behaviour that the source can reach (invalid size tags,
out-of-range register bytes, division by zero, an unterminated string
in `handle_print_string`) is modelled as an `Except.error` outcome.
Reads past the end of a freshly allocated byte buffer (which the
source performs in the `COMPARE_*_CONST` handlers through
`bytesToUint64`) are modelled by an explicit parameter carrying the
unspecified heap bytes that follow the allocation.
-/

deriving instance DecidableEq for Except

namespace RustyVM

/-- Little-endian value of a list of bytes (each taken mod 256), as read by the
pointer casts `bytesToUintN` of the source. -/
def leVal : List Nat → Nat
  | [] => 0
  | b :: bs => b % 256 + 256 * leVal bs

/-- The `n` little-endian bytes of a value, as written through the pointer
casts `uintNToBytes` of the source. -/
def leBytes : Nat → Nat → List Nat
  | 0, _ => []
  | n + 1, v => v % 256 :: leBytes n (v / 256)

/-- Reinterpretation of an unsigned 64-bit bit pattern as the signed
`int64` value the source obtains by implicit conversion. -/
def toInt64 (x : Nat) : Int :=
  if x % 2 ^ 64 < 2 ^ 63 then ((x % 2 ^ 64 : Nat) : Int)
  else ((x % 2 ^ 64 : Nat) : Int) - 2 ^ 64

/-- The register file enumeration of `registers.hh`; the ordinal of each
name is its position, and is the wire encoding of the register. -/
inductive Registers
  | A
  | B
  | C
  | D
  | EXIT
  | INPUT
  | ERROR
  | PRINT
  | STACK_POINTER
  | PROGRAM_COUNTER
  | ZERO_FLAG
  | SIGN_FLAG
  | REMAINDER_FLAG
  deriving DecidableEq, Fintype, Repr

/-- `byteToRegister` of the source: a cast of a raw byte to the enum.
A byte outside `0..12` leaves the enum's range; that is undefined
behaviour in the source and is modelled as `none`. -/
def byteToRegister (byte : Nat) : Option Registers :=
  match byte with
  | 0 => some .A
  | 1 => some .B
  | 2 => some .C
  | 3 => some .D
  | 4 => some .EXIT
  | 5 => some .INPUT
  | 6 => some .ERROR
  | 7 => some .PRINT
  | 8 => some .STACK_POINTER
  | 9 => some .PROGRAM_COUNTER
  | 10 => some .ZERO_FLAG
  | 11 => some .SIGN_FLAG
  | 12 => some .REMAINDER_FLAG
  | _ => none

/-- Modelled from the spec: the state of the host's standard-input stream
(`std::cin`), which the source uses but which is not part of the repository.
`chars` is the remaining input; the three bits mirror `eofbit`, `failbit`
and `badbit`; `pendingBad` models an unrecoverable fault of the underlying
source that will surface as `badbit` on the next read. -/
structure InStream where
  chars : List Nat
  eofbit : Bool
  failbit : Bool
  badbit : Bool
  pendingBad : Bool
  deriving DecidableEq, Repr

/-- One item written to standard output; the host's decimal formatting of
`PRINT` is abstracted as the event carrying the numeric value. -/
inductive OutEvent
  | num (value : Nat)
  | chars (bytes : List Nat)
  deriving DecidableEq, Repr

/-- The processor state: the 13-cell register file ((kept below `2 ^ 64` by
every write), the byte memory of `Memory` (`stack` in `memory.cpp`), the
`running` bit, and the host stream states. -/
structure Machine where
  regs : Registers → Nat
  mem : List Nat
  running : Bool
  stdin : InStream
  stdout : List OutEvent

/-- `Memory::getByte`: read one byte of the buffer.  An out-of-range
address is undefined behaviour in the source; the model returns 0. -/
def Memory.getByte (mem : List Nat) (address : Nat) : Nat :=
  mem.getD address 0

/-- `Memory::setBytes`: `memcpy` of `data` into the buffer at `address`
(writes past the end of the buffer are undefined behaviour in the source
and are dropped by the model). -/
def Memory.setBytes : List Nat → Nat → List Nat → List Nat
  | mem, _, [] => mem
  | mem, address, b :: bs => Memory.setBytes (mem.set address b) (address + 1) bs

/-- `Memory::getBytes`: allocate a fresh buffer and `memcpy` `size` bytes
of the live buffer at `address` into it (a snapshot copy). -/
def Memory.getBytes (mem : List Nat) (address size : Nat) : List Nat :=
  (mem.drop address).take size

/-- `Memory::setByte`: write one byte. -/
def Memory.setByte (mem : List Nat) (address : Nat) (data : Nat) : List Nat :=
  mem.set address (data % 256)

/-- `Processor::getRegister` (read side). -/
def getRegister (m : Machine) (reg : Registers) : Nat :=
  m.regs reg

/-- `Processor::getRegister` (write side): registers are `uint64`, so every
store is reduced modulo `2 ^ 64`. -/
def setRegister (m : Machine) (reg : Registers) (v : Nat) : Machine :=
  { m with regs := fun r => if r = reg then v % 2 ^ 64 else m.regs r }

/-- `bytesToUint64` applied to a freshly allocated buffer of
`bytes.length` bytes: the source dereferences the pointer as a full
`uint64`, so when the buffer holds fewer than 8 bytes the remaining high
bytes are unspecified heap memory, supplied here by `garbage` (an
out-of-bounds read, undefined behaviour in the source). -/
def bytesToUint64 (bytes : List Nat) (garbage : Nat) : Nat :=
  leVal (bytes.take 8) + 2 ^ (8 * min bytes.length 8) * (garbage % 2 ^ (8 * (8 - bytes.length)))

/-- `Processor::clearVolatileRegisters`. -/
def clearVolatileRegisters (m : Machine) : Machine :=
  setRegister m .EXIT 0

/-- `Processor::setArithmeticalFlags`: `result` is the unsigned 64-bit bit
pattern that the source implicitly converts to `int64`. -/
def setArithmeticalFlags (m : Machine) (result : Nat) (remainder : Nat) : Machine :=
  let m1 := setRegister m .ZERO_FLAG (if toInt64 result = 0 then 1 else 0)
  let m2 := setRegister m1 .SIGN_FLAG (if toInt64 result < 0 then 1 else 0)
  setRegister m2 .REMAINDER_FLAG remainder

/-- Unsigned 64-bit subtraction with wrap-around, as `uint64` `-` does. -/
def u64sub (a b : Nat) : Nat :=
  (a + (2 ^ 64 - b % 2 ^ 64)) % 2 ^ 64

/-- `Processor::pushStackBytes`: copy the bytes to `STACK_POINTER`, then
advance `STACK_POINTER` by their count. -/
def pushStackBytes (m : Machine) (bytes : List Nat) : Machine :=
  let m1 := { m with mem := Memory.setBytes m.mem (getRegister m .STACK_POINTER) bytes }
  setRegister m1 .STACK_POINTER (getRegister m1 .STACK_POINTER + bytes.length)

/-- `Processor::pushStack`: push the 8 bytes of a `uint64`. -/
def pushStack (m : Machine) (value : Nat) : Machine :=
  pushStackBytes m (leBytes 8 value)

/-- `Processor::popStackBytes`: decrement `STACK_POINTER` (with `uint64`
wrap-around), then read `size` bytes there. -/
def popStackBytes (m : Machine) (size : Nat) : Machine × List Nat :=
  let m1 := setRegister m .STACK_POINTER
    (getRegister m .STACK_POINTER + (2 ^ 64 - size % 2 ^ 64))
  (m1, Memory.getBytes m1.mem (getRegister m1 .STACK_POINTER) size)

/-- `Processor::nextByteCode(Byte size)`: read `size` bytes at
`PROGRAM_COUNTER` and advance it by `size`. -/
def nextByteCodeN (m : Machine) (size : Nat) : Machine × List Nat :=
  let pc := getRegister m .PROGRAM_COUNTER
  (setRegister m .PROGRAM_COUNTER (pc + size), Memory.getBytes m.mem pc size)

/-- `Processor::nextByteCode()`: read one byte at `PROGRAM_COUNTER` and
advance it by 1. -/
def nextByteCode (m : Machine) : Machine × Nat :=
  let pc := getRegister m .PROGRAM_COUNTER
  (setRegister m .PROGRAM_COUNTER (pc + 1), Memory.getByte m.mem pc)

/-- `Processor::addressFromByteCode`: read 8 bytecode bytes as a
little-endian address (the buffer holds exactly 8 bytes, so no
unspecified heap bytes are involved). -/
def addressFromByteCode (m : Machine) : Machine × Nat :=
  let (m1, bs) := nextByteCodeN m 8
  (m1, bytesToUint64 bs 0)

/-! ### Instruction handlers (`processor.cpp`)

Handlers that can reach C++ undefined behaviour or a `throw` return
`Except String Machine`; the others are total. -/

/-- `handle_add`: `A += B`, flags from the new `A`. -/
def handle_add (m : Machine) : Machine :=
  let m1 := setRegister m .A (getRegister m .A + getRegister m .B)
  setArithmeticalFlags m1 (getRegister m1 .A) 0

/-- `handle_sub`: `A -= B` with `uint64` wrap-around, flags from the new `A`. -/
def handle_sub (m : Machine) : Machine :=
  let m1 := setRegister m .A (u64sub (getRegister m .A) (getRegister m .B))
  setArithmeticalFlags m1 (getRegister m1 .A) 0

/-- `handle_mul`: `A *= B`, flags from the new `A`. -/
def handle_mul (m : Machine) : Machine :=
  let m1 := setRegister m .A (getRegister m .A * getRegister m .B)
  setArithmeticalFlags m1 (getRegister m1 .A) 0

/-- `handle_div`: remainder `A % B`, then `A /= B`; division by zero is
undefined behaviour in the source, modelled as a fatal outcome. -/
def handle_div (m : Machine) : Except String Machine :=
  if getRegister m .B = 0 then .error "division by zero"
  else
    let remainder := getRegister m .A % getRegister m .B
    let m1 := setRegister m .A (getRegister m .A / getRegister m .B)
    .ok (setArithmeticalFlags m1 (getRegister m1 .A) remainder)

/-- `handle_mod`: `A %= B`, flags from the new `A`. -/
def handle_mod (m : Machine) : Except String Machine :=
  if getRegister m .B = 0 then .error "division by zero"
  else
    let m1 := setRegister m .A (getRegister m .A % getRegister m .B)
    .ok (setArithmeticalFlags m1 (getRegister m1 .A) 0)

/-- `handle_inc_reg`: `++` on the register named by the next byte. -/
def handle_inc_reg (m : Machine) : Except String Machine :=
  let (m1, b) := nextByteCode m
  match byteToRegister b with
  | none => .error "invalid register byte"
  | some destReg =>
    let m2 := setRegister m1 destReg (getRegister m1 destReg + 1)
    .ok (setArithmeticalFlags m2 (getRegister m2 destReg) 0)

/-- `Processor::incrementUnsigned`: in-place `+= 1` on the `size`-byte
integer at `address`, flags from the new value; sizes other than
1, 2, 4, 8 throw. -/
def incrementUnsigned (m : Machine) (address : Nat) (size : Nat) : Except String Machine :=
  match size with
  | 1 =>
    let v := (leVal (Memory.getBytes m.mem address 1) + 1) % 2 ^ 8
    let m1 := { m with mem := Memory.setBytes m.mem address (leBytes 1 v) }
    .ok (setArithmeticalFlags m1 v 0)
  | 2 =>
    let v := (leVal (Memory.getBytes m.mem address 2) + 1) % 2 ^ 16
    let m1 := { m with mem := Memory.setBytes m.mem address (leBytes 2 v) }
    .ok (setArithmeticalFlags m1 v 0)
  | 4 =>
    let v := (leVal (Memory.getBytes m.mem address 4) + 1) % 2 ^ 32
    let m1 := { m with mem := Memory.setBytes m.mem address (leBytes 4 v) }
    .ok (setArithmeticalFlags m1 v 0)
  | 8 =>
    let v := (leVal (Memory.getBytes m.mem address 8) + 1) % 2 ^ 64
    let m1 := { m with mem := Memory.setBytes m.mem address (leBytes 8 v) }
    .ok (setArithmeticalFlags m1 v 0)
  | _ => .error "Invalid size"

/-- `Processor::decrementUnsigned`: in-place `-= 1` with wrap-around. -/
def decrementUnsigned (m : Machine) (address : Nat) (size : Nat) : Except String Machine :=
  match size with
  | 1 =>
    let v := (leVal (Memory.getBytes m.mem address 1) + (2 ^ 8 - 1)) % 2 ^ 8
    let m1 := { m with mem := Memory.setBytes m.mem address (leBytes 1 v) }
    .ok (setArithmeticalFlags m1 v 0)
  | 2 =>
    let v := (leVal (Memory.getBytes m.mem address 2) + (2 ^ 16 - 1)) % 2 ^ 16
    let m1 := { m with mem := Memory.setBytes m.mem address (leBytes 2 v) }
    .ok (setArithmeticalFlags m1 v 0)
  | 4 =>
    let v := (leVal (Memory.getBytes m.mem address 4) + (2 ^ 32 - 1)) % 2 ^ 32
    let m1 := { m with mem := Memory.setBytes m.mem address (leBytes 4 v) }
    .ok (setArithmeticalFlags m1 v 0)
  | 8 =>
    let v := (leVal (Memory.getBytes m.mem address 8) + (2 ^ 64 - 1)) % 2 ^ 64
    let m1 := { m with mem := Memory.setBytes m.mem address (leBytes 8 v) }
    .ok (setArithmeticalFlags m1 v 0)
  | _ => .error "Invalid size"

/-- `handle_inc_addr_in_reg`: size byte, register byte; increment the
integer at the address held in the register. -/
def handle_inc_addr_in_reg (m : Machine) : Except String Machine :=
  let (m1, size) := nextByteCode m
  let (m2, b) := nextByteCode m1
  match byteToRegister b with
  | none => .error "invalid register byte"
  | some addressReg => incrementUnsigned m2 (getRegister m2 addressReg) size

/-- `handle_inc_addr_literal`: size byte, 8-byte literal address. -/
def handle_inc_addr_literal (m : Machine) : Except String Machine :=
  let (m1, size) := nextByteCode m
  let (m2, destAddress) := addressFromByteCode m1
  incrementUnsigned m2 destAddress size

/-- `handle_dec_reg`: `--` on the register named by the next byte. -/
def handle_dec_reg (m : Machine) : Except String Machine :=
  let (m1, b) := nextByteCode m
  match byteToRegister b with
  | none => .error "invalid register byte"
  | some destReg =>
    let m2 := setRegister m1 destReg (getRegister m1 destReg + (2 ^ 64 - 1))
    .ok (setArithmeticalFlags m2 (getRegister m2 destReg) 0)

/-- `handle_dec_addr_in_reg`. -/
def handle_dec_addr_in_reg (m : Machine) : Except String Machine :=
  let (m1, size) := nextByteCode m
  let (m2, b) := nextByteCode m1
  match byteToRegister b with
  | none => .error "invalid register byte"
  | some addressReg => decrementUnsigned m2 (getRegister m2 addressReg) size

/-- `handle_dec_addr_literal`. -/
def handle_dec_addr_literal (m : Machine) : Except String Machine :=
  let (m1, size) := nextByteCode m
  let (m2, destAddress) := addressFromByteCode m1
  decrementUnsigned m2 destAddress size

/-- `handle_no_operation`: do nothing. -/
def handle_no_operation (m : Machine) : Machine := m

/-- `Processor::moveBytesIntoRegister`: zero-extending load of a 1/2/4/8
byte buffer into a register; other sizes throw. -/
def moveBytesIntoRegister (m : Machine) (bytes : List Nat) (size : Nat)
    (destReg : Registers) : Except String Machine :=
  match size with
  | 1 => .ok (setRegister m destReg (leVal (bytes.take 1)))
  | 2 => .ok (setRegister m destReg (leVal (bytes.take 2)))
  | 4 => .ok (setRegister m destReg (leVal (bytes.take 4)))
  | 8 => .ok (setRegister m destReg (leVal (bytes.take 8)))
  | _ => .error "Invalid size"

/-- `Processor::moveRegisterIntoAddress`: store the low 1/2/4/8 bytes of a
register to memory; other sizes throw. -/
def moveRegisterIntoAddress (m : Machine) (srcReg : Registers) (destAddress : Nat)
    (size : Nat) : Except String Machine :=
  match size with
  | 1 => .ok { m with mem := Memory.setBytes m.mem destAddress (leBytes 1 (getRegister m srcReg)) }
  | 2 => .ok { m with mem := Memory.setBytes m.mem destAddress (leBytes 2 (getRegister m srcReg)) }
  | 4 => .ok { m with mem := Memory.setBytes m.mem destAddress (leBytes 4 (getRegister m srcReg)) }
  | 8 => .ok { m with mem := Memory.setBytes m.mem destAddress (leBytes 8 (getRegister m srcReg)) }
  | _ => .error "Invalid size"

/-- `handle_move_into_reg_from_reg`: destination byte, source byte; a full
64-bit register copy. -/
def handle_move_into_reg_from_reg (m : Machine) : Except String Machine :=
  let (m1, b1) := nextByteCode m
  let (m2, b2) := nextByteCode m1
  match byteToRegister b1, byteToRegister b2 with
  | some destReg, some srcReg => .ok (setRegister m2 destReg (getRegister m2 srcReg))
  | _, _ => .error "invalid register byte"

/-- `handle_move_into_reg_from_addr_in_reg`: size, destination register,
address register; zero-extending load from memory. -/
def handle_move_into_reg_from_addr_in_reg (m : Machine) : Except String Machine :=
  let (m1, size) := nextByteCode m
  let (m2, b1) := nextByteCode m1
  let (m3, b2) := nextByteCode m2
  match byteToRegister b1, byteToRegister b2 with
  | some destReg, some addressReg =>
    let srcAddress := getRegister m3 addressReg
    moveBytesIntoRegister m3 (Memory.getBytes m3.mem srcAddress size) size destReg
  | _, _ => .error "invalid register byte"

/-- `handle_move_into_reg_from_const`: size, destination register, `size`
immediate bytes. -/
def handle_move_into_reg_from_const (m : Machine) : Except String Machine :=
  let (m1, size) := nextByteCode m
  let (m2, b) := nextByteCode m1
  match byteToRegister b with
  | none => .error "invalid register byte"
  | some destReg =>
    let (m3, bytes) := nextByteCodeN m2 size
    moveBytesIntoRegister m3 bytes size destReg

/-- `handle_move_into_reg_from_addr_literal`: size, destination register,
8-byte literal address. -/
def handle_move_into_reg_from_addr_literal (m : Machine) : Except String Machine :=
  let (m1, size) := nextByteCode m
  let (m2, b) := nextByteCode m1
  match byteToRegister b with
  | none => .error "invalid register byte"
  | some destReg =>
    let (m3, srcAddress) := addressFromByteCode m2
    moveBytesIntoRegister m3 (Memory.getBytes m3.mem srcAddress size) size destReg

/-- `handle_move_into_addr_in_reg_from_reg`: size, address register,
source register. -/
def handle_move_into_addr_in_reg_from_reg (m : Machine) : Except String Machine :=
  let (m1, size) := nextByteCode m
  let (m2, b1) := nextByteCode m1
  let (m3, b2) := nextByteCode m2
  match byteToRegister b1, byteToRegister b2 with
  | some addressReg, some srcReg =>
    moveRegisterIntoAddress m3 srcReg (getRegister m3 addressReg) size
  | _, _ => .error "invalid register byte"

/-- `handle_move_into_addr_in_reg_from_addr_in_reg`: size, destination
address register, source address register; a snapshot copy through
`Memory::getBytes`. -/
def handle_move_into_addr_in_reg_from_addr_in_reg (m : Machine) : Except String Machine :=
  let (m1, size) := nextByteCode m
  let (m2, b1) := nextByteCode m1
  let (m3, b2) := nextByteCode m2
  match byteToRegister b1, byteToRegister b2 with
  | some destAddressReg, some srcAddressReg =>
    let destAddress := getRegister m3 destAddressReg
    let srcAddress := getRegister m3 srcAddressReg
    .ok { m3 with mem := Memory.setBytes m3.mem destAddress (Memory.getBytes m3.mem srcAddress size) }
  | _, _ => .error "invalid register byte"

/-- `handle_move_into_addr_in_reg_from_const`: size, address register,
`size` immediate bytes. -/
def handle_move_into_addr_in_reg_from_const (m : Machine) : Except String Machine :=
  let (m1, size) := nextByteCode m
  let (m2, b) := nextByteCode m1
  match byteToRegister b with
  | none => .error "invalid register byte"
  | some addressReg =>
    let destAddress := getRegister m2 addressReg
    let (m3, bytes) := nextByteCodeN m2 size
    .ok { m3 with mem := Memory.setBytes m3.mem destAddress bytes }

/-- `handle_move_into_addr_in_reg_from_addr_literal`: size, address
register, 8-byte literal source address. -/
def handle_move_into_addr_in_reg_from_addr_literal (m : Machine) : Except String Machine :=
  let (m1, size) := nextByteCode m
  let (m2, b) := nextByteCode m1
  match byteToRegister b with
  | none => .error "invalid register byte"
  | some reg =>
    let destAddress := getRegister m2 reg
    let (m3, srcAddress) := addressFromByteCode m2
    .ok { m3 with mem := Memory.setBytes m3.mem destAddress (Memory.getBytes m3.mem srcAddress size) }

/-- `handle_move_into_addr_literal_from_reg`: size, 8-byte literal
destination address, source register; copies the low `size` bytes of the
register (a size above 8 would read past the register cell in the source,
modelled as a fatal outcome). -/
def handle_move_into_addr_literal_from_reg (m : Machine) : Except String Machine :=
  let (m1, size) := nextByteCode m
  let (m2, destAddress) := addressFromByteCode m1
  let (m3, b) := nextByteCode m2
  match byteToRegister b with
  | none => .error "invalid register byte"
  | some srcReg =>
    if size ≤ 8 then
      .ok { m3 with mem := Memory.setBytes m3.mem destAddress (leBytes size (getRegister m3 srcReg)) }
    else .error "read past the source register"

/-- `handle_move_into_addr_literal_from_addr_in_reg`: size, 8-byte literal
destination address, source address register. -/
def handle_move_into_addr_literal_from_addr_in_reg (m : Machine) : Except String Machine :=
  let (m1, size) := nextByteCode m
  let (m2, destAddress) := addressFromByteCode m1
  let (m3, b) := nextByteCode m2
  match byteToRegister b with
  | none => .error "invalid register byte"
  | some addressReg =>
    let srcAddress := getRegister m3 addressReg
    .ok { m3 with mem := Memory.setBytes m3.mem destAddress (Memory.getBytes m3.mem srcAddress size) }

/-- `handle_move_into_addr_literal_from_const`: size, 8-byte literal
destination address, `size` immediate bytes. -/
def handle_move_into_addr_literal_from_const (m : Machine) : Machine :=
  let (m1, size) := nextByteCode m
  let (m2, destAddress) := addressFromByteCode m1
  let (m3, bytes) := nextByteCodeN m2 size
  { m3 with mem := Memory.setBytes m3.mem destAddress bytes }

/-- `handle_move_into_addr_literal_from_addr_literal`: size, 8-byte literal
destination address, 8-byte literal source address; the source bytes are
snapshot-copied out of memory by `Memory::getBytes` before being written. -/
def handle_move_into_addr_literal_from_addr_literal (m : Machine) : Machine :=
  let (m1, size) := nextByteCode m
  let (m2, destAddress) := addressFromByteCode m1
  let (m3, srcAddress) := addressFromByteCode m2
  { m3 with mem := Memory.setBytes m3.mem destAddress (Memory.getBytes m3.mem srcAddress size) }

/-- `handle_push_from_reg`: push all 8 bytes of the named register. -/
def handle_push_from_reg (m : Machine) : Except String Machine :=
  let (m1, b) := nextByteCode m
  match byteToRegister b with
  | none => .error "invalid register byte"
  | some srcReg => .ok (pushStack m1 (getRegister m1 srcReg))

/-- `handle_push_from_addr_in_reg`: size, address register. -/
def handle_push_from_addr_in_reg (m : Machine) : Except String Machine :=
  let (m1, size) := nextByteCode m
  let (m2, b) := nextByteCode m1
  match byteToRegister b with
  | none => .error "invalid register byte"
  | some addressReg =>
    let srcAddress := getRegister m2 addressReg
    .ok (pushStackBytes m2 (Memory.getBytes m2.mem srcAddress size))

/-- `handle_push_from_const`: size, `size` immediate bytes. -/
def handle_push_from_const (m : Machine) : Machine :=
  let (m1, size) := nextByteCode m
  let (m2, bytes) := nextByteCodeN m1 size
  pushStackBytes m2 bytes

/-- `handle_push_from_addr_literal`: size, 8-byte literal source address. -/
def handle_push_from_addr_literal (m : Machine) : Machine :=
  let (m1, size) := nextByteCode m
  let (m2, srcAddress) := addressFromByteCode m1
  pushStackBytes m2 (Memory.getBytes m2.mem srcAddress size)

/-- `handle_pop_into_reg`: pops 8 bytes into the named register. -/
def handle_pop_into_reg (m : Machine) : Except String Machine :=
  let (m1, b) := nextByteCode m
  match byteToRegister b with
  | none => .error "invalid register byte"
  | some destReg =>
    let (m2, bytes) := popStackBytes m1 8
    .ok (setRegister m2 destReg (bytesToUint64 bytes 0))

/-- `handle_pop_into_addr_in_reg`: size, address register. -/
def handle_pop_into_addr_in_reg (m : Machine) : Except String Machine :=
  let (m1, size) := nextByteCode m
  let (m2, b) := nextByteCode m1
  match byteToRegister b with
  | none => .error "invalid register byte"
  | some addressReg =>
    let destAddress := getRegister m2 addressReg
    let (m3, bytes) := popStackBytes m2 size
    .ok { m3 with mem := Memory.setBytes m3.mem destAddress bytes }

/-- `handle_pop_into_addr_literal`: size, 8-byte literal destination
address. -/
def handle_pop_into_addr_literal (m : Machine) : Machine :=
  let (m1, size) := nextByteCode m
  let (m2, destAddress) := addressFromByteCode m1
  let (m3, bytes) := popStackBytes m2 size
  { m3 with mem := Memory.setBytes m3.mem destAddress bytes }

/-- `handle_jump`: `PROGRAM_COUNTER` is set to the 8-byte literal target. -/
def handle_jump (m : Machine) : Machine :=
  let (m1, target) := addressFromByteCode m
  setRegister m1 .PROGRAM_COUNTER target

/-- `handle_jump_if_true_reg`: 8-byte target, then the test register byte;
jump when the register is non-zero. -/
def handle_jump_if_true_reg (m : Machine) : Except String Machine :=
  let (m1, target) := addressFromByteCode m
  let (m2, b) := nextByteCode m1
  match byteToRegister b with
  | none => .error "invalid register byte"
  | some testReg =>
    if getRegister m2 testReg ≠ 0 then .ok (setRegister m2 .PROGRAM_COUNTER target)
    else .ok m2

/-- `handle_jump_if_false_reg`: jump when the test register is zero. -/
def handle_jump_if_false_reg (m : Machine) : Except String Machine :=
  let (m1, target) := addressFromByteCode m
  let (m2, b) := nextByteCode m1
  match byteToRegister b with
  | none => .error "invalid register byte"
  | some testReg =>
    if getRegister m2 testReg = 0 then .ok (setRegister m2 .PROGRAM_COUNTER target)
    else .ok m2

/-- `handle_compare_reg_reg`: flags from the wrapped difference of the two
named registers. -/
def handle_compare_reg_reg (m : Machine) : Except String Machine :=
  let (m1, b1) := nextByteCode m
  let (m2, b2) := nextByteCode m1
  match byteToRegister b1, byteToRegister b2 with
  | some reg1, some reg2 =>
    .ok (setArithmeticalFlags m2 (u64sub (getRegister m2 reg1) (getRegister m2 reg2)) 0)
  | _, _ => .error "invalid register byte"

/-- `handle_compare_reg_const`: size, register, `size` constant bytes; the
source reads the constant with `bytesToUint64`, so for sizes below 8 the
value includes `8 - size` unspecified heap bytes (`garbageA`). -/
def handle_compare_reg_const (garbageA : Nat) (m : Machine) : Except String Machine :=
  let (m1, size) := nextByteCode m
  let (m2, b) := nextByteCode m1
  match byteToRegister b with
  | none => .error "invalid register byte"
  | some reg =>
    let (m3, bytes) := nextByteCodeN m2 size
    let value := bytesToUint64 bytes garbageA
    .ok (setArithmeticalFlags m3 (u64sub (getRegister m3 reg) value) 0)

/-- `handle_compare_const_reg`: size, `size` constant bytes, register. -/
def handle_compare_const_reg (garbageA : Nat) (m : Machine) : Except String Machine :=
  let (m1, size) := nextByteCode m
  let (m2, bytes) := nextByteCodeN m1 size
  let value := bytesToUint64 bytes garbageA
  let (m3, b) := nextByteCode m2
  match byteToRegister b with
  | none => .error "invalid register byte"
  | some reg =>
    .ok (setArithmeticalFlags m3 (u64sub value (getRegister m3 reg)) 0)

/-- `handle_compare_const_const`: one size byte used for both constants;
each read allocates a fresh buffer, hence two independent unspecified
heap tails. -/
def handle_compare_const_const (garbageA garbageB : Nat) (m : Machine) : Machine :=
  let (m1, size) := nextByteCode m
  let (m2, bytes1) := nextByteCodeN m1 size
  let value1 := bytesToUint64 bytes1 garbageA
  let (m3, bytes2) := nextByteCodeN m2 size
  let value2 := bytesToUint64 bytes2 garbageB
  setArithmeticalFlags m3 (u64sub value1 value2) 0

/-- `handle_print`: write the decimal representation of `PRINT` to
standard output. -/
def handle_print (m : Machine) : Machine :=
  { m with stdout := m.stdout ++ [OutEvent.num (getRegister m .PRINT)] }

/-- `handle_print_string`: write the bytes at the address in `PRINT` up to
(not including) the first zero byte.  Running past the end of memory
without a terminator is undefined behaviour in the source. -/
def handle_print_string (m : Machine) : Except String Machine :=
  let srcAddress := getRegister m .PRINT
  let tail := m.mem.drop srcAddress
  if tail.contains 0 then
    .ok { m with stdout := m.stdout ++ [OutEvent.chars (tail.takeWhile (· ≠ 0))] }
  else .error "unterminated string"

/-! ### The host input stream (modelled)

The input handlers call `std::cin` operations that are not part of the
repository; they are modelled here from the C++ standard semantics the
source relies on (C++11 and later: a failed formatted extraction writes 0
to its target). -/

/-- Whitespace for formatted extraction. -/
def isStreamWS (c : Nat) : Bool := c = 32 || (9 ≤ c && 13 ≥ c)

/-- An ASCII decimal digit. -/
def isDigitChar (c : Nat) : Bool := 48 ≤ c && 57 ≥ c

/-- Value of a list of ASCII digits. -/
def digitsVal (ds : List Nat) : Nat :=
  ds.foldl (fun acc d => acc * 10 + (d - 48)) 0

/-- `std::ios::fail()`: set when `failbit` or `badbit` is set. -/
def cinFailFlag (s : InStream) : Bool := s.failbit || s.badbit

/-- `std::ios::eof()`. -/
def cinEofFlag (s : InStream) : Bool := s.eofbit

/-- `std::ios::bad()`. -/
def cinBadFlag (s : InStream) : Bool := s.badbit

/-- `std::ios::clear()`: reset the three state bits. -/
def cinClear (s : InStream) : InStream :=
  { s with eofbit := false, failbit := false, badbit := false }

/-- Modelled from the spec: `std::cin.ignore(max, newline)` — discard
characters up to and including the next newline; hitting end of input sets
`eofbit`.  (Called by the source only on a just-cleared stream.) -/
def cinIgnoreLine (s : InStream) : InStream :=
  if s.eofbit || s.failbit || s.badbit then { s with failbit := true }
  else
    let rest := s.chars.dropWhile (· ≠ 10)
    match rest with
    | [] => { s with chars := [], eofbit := true }
    | _ :: r => { s with chars := r }

/-- Modelled from the spec: the formatted extraction `std::cin >> uint64`
used by `handle_input_int` (the `std::cin` implementation is not part of
the repository).  If the stream is already in a failed state the sentry
sets `failbit` and the target is not written (`none`).  A pending
unrecoverable fault sets `badbit` without writing the target.  Otherwise
whitespace is skipped; no remaining digit yields `eofbit | failbit` and
writes 0 (no characters at all) or `failbit` and 0 (a non-numeric token);
a digit run is consumed and its value written, `failbit` and a saturated
value on overflow (C++11 semantics). -/
def extractU64 (s : InStream) : InStream × Option Nat :=
  if s.eofbit || s.failbit || s.badbit then ({ s with failbit := true }, none)
  else if s.pendingBad then ({ s with badbit := true, pendingBad := false }, none)
  else
    let rest := s.chars.dropWhile isStreamWS
    match rest with
    | [] => ({ s with chars := [], eofbit := true, failbit := true }, some 0)
    | c :: _ =>
      if isDigitChar c then
        let ds := rest.takeWhile isDigitChar
        let rest2 := rest.drop ds.length
        if digitsVal ds < 2 ^ 64 then
          ({ s with chars := rest2, eofbit := rest2.isEmpty }, some (digitsVal ds))
        else
          ({ s with chars := rest2, eofbit := rest2.isEmpty, failbit := true },
            some (2 ^ 64 - 1))
      else ({ s with chars := rest, failbit := true }, some 0)

/-- Modelled from the spec: `std::getline(std::cin, input)` — read a line
up to and excluding the newline, consuming it; extracting no characters
at end of input sets `eofbit | failbit`; reaching end of input after some
characters sets only `eofbit`. -/
def getlineFromStream (s : InStream) : InStream × List Nat :=
  if s.eofbit || s.failbit || s.badbit then ({ s with failbit := true }, [])
  else if s.pendingBad then ({ s with badbit := true, pendingBad := false }, [])
  else
    match s.chars with
    | [] => ({ s with eofbit := true, failbit := true }, [])
    | c :: cs =>
      let line := (c :: cs).takeWhile (· ≠ 10)
      match (c :: cs).drop line.length with
      | [] => ({ s with chars := [], eofbit := true }, line)
      | _ :: r => ({ s with chars := r }, line)

/-- `handle_input_int`: extract a `uint64` directly into `INPUT`; then
check `eof()` (return with `ERROR = END_OF_FILE`), `fail()` (clear,
discard the line, `ERROR = INVALID_INPUT`), `bad()` (clear, discard,
`ERROR = GENERIC_ERROR`), else `ERROR = NO_ERROR`. -/
def handle_input_int (m : Machine) : Machine :=
  match extractU64 m.stdin with
  | (s1, vo) =>
    let m1 := match vo with
      | some v => setRegister { m with stdin := s1 } .INPUT v
      | none => { m with stdin := s1 }
    if cinEofFlag s1 then setRegister m1 .ERROR 1
    else if cinFailFlag s1 then
      let s2 := cinIgnoreLine (cinClear s1)
      setRegister { m1 with stdin := s2 } .ERROR 2
    else if cinBadFlag s1 then
      let s2 := cinIgnoreLine (cinClear s1)
      setRegister { m1 with stdin := s2 } .ERROR 3
    else setRegister m1 .ERROR 0

/-- `handle_input_string`: `getline` into a local string; on the failure
checks, behave as `handle_input_int`; on success set `ERROR = NO_ERROR`,
store the length in `INPUT` and push the bytes onto the stack. -/
def handle_input_string (m : Machine) : Machine :=
  match getlineFromStream m.stdin with
  | (s1, input) =>
    let m1 := { m with stdin := s1 }
    if cinEofFlag s1 then setRegister m1 .ERROR 1
    else if cinFailFlag s1 then
      let s2 := cinIgnoreLine (cinClear s1)
      setRegister { m1 with stdin := s2 } .ERROR 2
    else if cinBadFlag s1 then
      let s2 := cinIgnoreLine (cinClear s1)
      setRegister { m1 with stdin := s2 } .ERROR 3
    else
      let m2 := setRegister m1 .ERROR 0
      let m3 := setRegister m2 .INPUT input.length
      pushStackBytes m3 input

/-- `handle_exit`: flip `running` to false.  Nothing else: in particular
the value of `EXIT` is not read or saved here. -/
def handle_exit (m : Machine) : Machine :=
  { m with running := false }

/-- `Processor::handle_instruction`: the dispatch switch of
`src/vm/src/processor.cpp`, with the opcode ordinals of
`src/vm_cpp/headers/byte_code.hh` (`LABEL = 31`, `PRINT_CHAR = 40`,
`EXIT = 44`).  The switch has no `default` case, and no case for `LABEL`
or `PRINT_CHAR`: such opcodes execute nothing and fall through. -/
def handle_instruction (garbageA garbageB : Nat) (instruction : Nat)
    (m : Machine) : Except String Machine :=
  match instruction with
  | 0 => .ok (handle_add m)
  | 1 => .ok (handle_sub m)
  | 2 => .ok (handle_mul m)
  | 3 => handle_div m
  | 4 => handle_mod m
  | 5 => handle_inc_reg m
  | 6 => handle_inc_addr_in_reg m
  | 7 => handle_inc_addr_literal m
  | 8 => handle_dec_reg m
  | 9 => handle_dec_addr_in_reg m
  | 10 => handle_dec_addr_literal m
  | 11 => .ok (handle_no_operation m)
  | 12 => handle_move_into_reg_from_reg m
  | 13 => handle_move_into_reg_from_addr_in_reg m
  | 14 => handle_move_into_reg_from_const m
  | 15 => handle_move_into_reg_from_addr_literal m
  | 16 => handle_move_into_addr_in_reg_from_reg m
  | 17 => handle_move_into_addr_in_reg_from_addr_in_reg m
  | 18 => handle_move_into_addr_in_reg_from_const m
  | 19 => handle_move_into_addr_in_reg_from_addr_literal m
  | 20 => handle_move_into_addr_literal_from_reg m
  | 21 => handle_move_into_addr_literal_from_addr_in_reg m
  | 22 => .ok (handle_move_into_addr_literal_from_const m)
  | 23 => .ok (handle_move_into_addr_literal_from_addr_literal m)
  | 24 => handle_push_from_reg m
  | 25 => handle_push_from_addr_in_reg m
  | 26 => .ok (handle_push_from_const m)
  | 27 => .ok (handle_push_from_addr_literal m)
  | 28 => handle_pop_into_reg m
  | 29 => handle_pop_into_addr_in_reg m
  | 30 => .ok (handle_pop_into_addr_literal m)
  | 32 => .ok (handle_jump m)
  | 33 => handle_jump_if_true_reg m
  | 34 => handle_jump_if_false_reg m
  | 35 => handle_compare_reg_reg m
  | 36 => handle_compare_reg_const garbageA m
  | 37 => handle_compare_const_reg garbageA m
  | 38 => .ok (handle_compare_const_const garbageA garbageB m)
  | 39 => .ok (handle_print m)
  | 41 => handle_print_string m
  | 42 => .ok (handle_input_int m)
  | 43 => .ok (handle_input_string m)
  | 44 => .ok (handle_exit m)
  | _ => .ok m

/-- One iteration of the `Processor::run` loop body: fetch the opcode byte,
dispatch, then clear the volatile `EXIT` register.  A state produced by
`runStep` is an instruction boundary. -/
def runStep (garbageA garbageB : Nat) (m : Machine) : Except String Machine :=
  (handle_instruction garbageA garbageB (nextByteCode m).2 (nextByteCode m).1).map
    clearVolatileRegisters

/-- `Processor::run`: loop while `running`, with explicit fuel (the source
loop has no bound; all concrete programs used below halt within the fuel).
`garbage` supplies the unspecified heap bytes for each step's compare
reads. -/
def run (garbage : Nat → Nat × Nat) : Nat → Machine → Except String Machine
  | 0, m => if m.running then .error "out of fuel" else .ok m
  | fuel + 1, m =>
    if m.running then
      match runStep (garbage fuel).1 (garbage fuel).2 m with
      | .ok m1 => run garbage fuel m1
      | .error e => .error e
    else .ok m

/-- The machine right after construction: all register cells zero,
`running` false. -/
def initialMachine (mem0 : List Nat) (input0 : InStream) : Machine :=
  { regs := fun _ => 0, mem := mem0, running := false, stdin := input0, stdout := [] }

/-- `Processor::execute`: load the bytecode through the stack-push path,
run until halt, and return `static_cast<ErrorCodes>(EXIT)` — the `EXIT`
register of the final state, truncated to a byte. -/
def execute (garbage : Nat → Nat × Nat) (fuel : Nat) (byteCode : List Nat)
    (mem0 : List Nat) (input0 : InStream) : Except String Nat :=
  let m0 := pushStackBytes (initialMachine mem0 input0) byteCode
  let m1 := { m0 with running := true }
  (run garbage fuel m1).map (fun m2 => getRegister m2 .EXIT % 256)

/-! ### Concrete fixtures used by the theorems -/

/-- A heap-garbage oracle resolving every unspecified heap byte to 0. -/
def noGarbage : Nat → Nat × Nat := fun _ => (0, 0)

/-- A fresh standard input stream with no data. -/
def emptyInput : InStream := ⟨[], false, false, false, false⟩

/-- A 64-byte memory region (the source does not zero its allocation; a
zero instantiation is one admissible initial content). -/
def demoMemory : List Nat := List.replicate 64 0

/-- The machine at the top of the `run` loop of `execute prog`: bytecode
loaded at offset 0, `running` set. -/
def startOn (prog : List Nat) : Machine :=
  { pushStackBytes (initialMachine demoMemory emptyInput) prog with running := true }

/-- `MOVE_INTO_REG_FROM_CONST size=1 reg=EXIT const=5 ; EXIT` — a guest
that stores 5 in `EXIT` and halts. -/
def exitProgram : List Nat := [14, 1, 4, 5, 44]

/-- `MOVE_INTO_REG_FROM_CONST size=8 reg=A 0xDEADBEEF ; PUSH_FROM_REG A ;
MOVE_INTO_REG_FROM_CONST size=8 reg=A 0 ; POP_INTO_REG A ; EXIT`. -/
def stackProgram : List Nat :=
  [14, 8, 0, 239, 190, 173, 222, 0, 0, 0, 0,
   24, 0,
   14, 8, 0, 0, 0, 0, 0, 0, 0, 0, 0,
   28, 0,
   44]

/-- A machine about to dispatch the `LABEL` opcode (31), followed by
`EXIT`. -/
def labelMachine : Machine := startOn [31, 44]

/-- A machine about to dispatch an unassigned opcode byte (200), followed
by `EXIT`. -/
def unknownMachine : Machine := startOn [200, 44]

/-- A machine with `A = 5` whose bytecode holds the operands of
`COMPARE_REG_CONST`: size 1, register `A`, constant byte 5 (the opcode
byte itself already consumed). -/
def cmpMachine : Machine := setRegister (initialMachine [1, 0, 5] emptyInput) .A 5

/-- A machine whose bytecode holds the operands of
`MOVE_INTO_ADDR_LITERAL_FROM_ADDR_LITERAL`: size 2, destination 18,
source 17 — overlapping ranges — with data bytes 7, 8, 9 at
addresses 17, 18, 19. -/
def overlapMachine : Machine :=
  initialMachine ([2] ++ leBytes 8 18 ++ leBytes 8 17 ++ [7, 8, 9]) emptyInput

/-- A machine whose standard input is the given stream. -/
def inputMachine (s : InStream) : Machine := initialMachine (List.replicate 8 0) s

/-- Standard input holding the line `42`. -/
def numberInput : InStream := ⟨[52, 50, 10], false, false, false, false⟩

/-- Standard input holding the non-numeric token `abc` (no newline). -/
def abcInput : InStream := ⟨[97, 98, 99], false, false, false, false⟩

/-- Standard input whose underlying source will fault unrecoverably on the
next read. -/
def badInput : InStream := ⟨[53, 10], false, false, false, true⟩

/-- A machine with `A = 3` and `B = 5`. -/
def demoSubMachine : Machine :=
  setRegister (setRegister (initialMachine [] emptyInput) .A 3) .B 5

/-- Modelled from the spec: an in-place forward byte-by-byte copy of `n`
bytes from `s` to `d` — `for i in 0..n: mem[d+i] := mem[s+i]` reading the
live buffer — the reading of the claim that a memory-to-memory move has
the semantics of a forward copy even on overlap. -/
def specForwardCopy : List Nat → Nat → Nat → Nat → List Nat
  | mem, _, _, 0 => mem
  | mem, d, s, n + 1 => specForwardCopy (mem.set d (mem.getD s 0)) (d + 1) (s + 1) n

/-! ### Basic lemmas about the embedding -/

theorem getRegister_setRegister (m : Machine) (r' r : Registers) (v : Nat) :
    getRegister (setRegister m r v) r' = if r' = r then v % 2 ^ 64 else getRegister m r' := rfl

theorem setRegister_stdin (m : Machine) (r : Registers) (v : Nat) :
    (setRegister m r v).stdin = m.stdin := rfl

theorem setRegister_mem (m : Machine) (r : Registers) (v : Nat) :
    (setRegister m r v).mem = m.mem := rfl

theorem setRegister_running (m : Machine) (r : Registers) (v : Nat) :
    (setRegister m r v).running = m.running := rfl

theorem getRegister_updateMem (m : Machine) (mem1 : List Nat) (r : Registers) :
    getRegister { m with mem := mem1 } r = getRegister m r := rfl

theorem getRegister_updateStdin (m : Machine) (s : InStream) (r : Registers) :
    getRegister { m with stdin := s } r = getRegister m r := rfl

theorem mem_updateStdin (m : Machine) (s : InStream) :
    ({ m with stdin := s } : Machine).mem = m.mem := rfl

theorem getRegister_pushStackBytes_ne (m : Machine) (bytes : List Nat) (r : Registers)
    (h : r ≠ .STACK_POINTER) :
    getRegister (pushStackBytes m bytes) r = getRegister m r := by
  unfold pushStackBytes
  simp [getRegister_setRegister, getRegister_updateMem, h]

theorem toInt64_neg_iff (v : Nat) (h : v < 2 ^ 64) : toInt64 v < 0 ↔ 2 ^ 63 ≤ v := by
  unfold toInt64
  rw [Nat.mod_eq_of_lt h]
  split <;> omega

theorem toInt64_eq_zero_iff (v : Nat) (h : v < 2 ^ 64) : toInt64 v = 0 ↔ v = 0 := by
  unfold toInt64
  rw [Nat.mod_eq_of_lt h]
  split <;> omega

theorem length_setBytes (data : List Nat) (mem : List Nat) (a : Nat) :
    (Memory.setBytes mem a data).length = mem.length := by
  induction data generalizing mem a with
  | nil => rfl
  | cons b bs ih => rw [Memory.setBytes, ih, List.length_set]

theorem getByte_setBytes (data : List Nat) (mem : List Nat) (a i : Nat)
    (h : a + data.length ≤ mem.length) :
    Memory.getByte (Memory.setBytes mem a data) i
      = if a ≤ i ∧ i < a + data.length then data.getD (i - a) 0
        else Memory.getByte mem i := by
  induction data generalizing mem a with
  | nil =>
    rw [Memory.setBytes]
    rw [if_neg (by simp only [List.length_nil]; omega)]
  | cons b bs ih =>
    rw [Memory.setBytes]
    rw [ih (mem.set a b) (a + 1)
      (by rw [List.length_set]; simp only [List.length_cons] at h; omega)]
    simp only [List.length_cons] at h
    by_cases hia : i = a
    · subst hia
      rw [if_neg (by omega), if_pos (by simp only [List.length_cons]; omega)]
      unfold Memory.getByte
      rw [List.getD_eq_getElem?_getD, List.getElem?_set_self (by omega)]
      simp
    · have hgb : Memory.getByte (mem.set a b) i = Memory.getByte mem i := by
        unfold Memory.getByte
        rw [List.getD_eq_getElem?_getD, List.getD_eq_getElem?_getD,
          List.getElem?_set_ne (fun hh => hia hh.symm)]
      by_cases hin : a + 1 ≤ i ∧ i < a + 1 + bs.length
      · rw [if_pos hin, if_pos (by simp only [List.length_cons]; omega)]
        obtain ⟨k, hk⟩ : ∃ k, i - a = k + 1 := ⟨i - (a + 1), by omega⟩
        rw [hk, List.getD_cons_succ]
        congr 1
        omega
      · rw [if_neg hin, hgb, if_neg (by simp only [List.length_cons]; omega)]

theorem length_getBytes (mem : List Nat) (s n : Nat) (hs : s + n ≤ mem.length) :
    (Memory.getBytes mem s n).length = n := by
  unfold Memory.getBytes
  simp only [List.length_take, List.length_drop]
  omega

theorem getD_getBytes (mem : List Nat) (s n i : Nat) (hi : i < n) :
    (Memory.getBytes mem s n).getD i 0 = Memory.getByte mem (s + i) := by
  unfold Memory.getBytes Memory.getByte
  rw [List.getD_eq_getElem?_getD, List.getD_eq_getElem?_getD,
    List.getElem?_take_of_lt hi, List.getElem?_drop]

theorem bytesToUint64_getBytes8_zero (mem : List Nat) (x : Nat) :
    bytesToUint64 (Memory.getBytes mem x 8) 0 = leVal (Memory.getBytes mem x 8) := by
  unfold bytesToUint64 Memory.getBytes
  simp [List.take_take]

theorem u64sub_lt (a b : Nat) : u64sub a b < 2 ^ 64 := by
  unfold u64sub
  exact Nat.mod_lt _ (by norm_num)

theorem u64sub_of_lt (a b : Nat) (hb : b < 2 ^ 64) :
    u64sub a b = (a + (2 ^ 64 - b)) % 2 ^ 64 := by
  unfold u64sub
  rw [Nat.mod_eq_of_lt hb]

/-! ### Claims -/

/-- C1: the claim that `execute` returns the exit code the guest left in
`EXIT` fails on the code.  For the guest that stores 5 in `EXIT` and
halts, the handler of the store does leave 5 in `EXIT` (first conjunct),
but `clearVolatileRegisters` zeroes `EXIT` at every instruction boundary
— after the storing instruction and again after `handle_exit` — so
`execute` returns 0, not 5 (second conjunct). -/
theorem c1_execute_returns_zero_not_stored_exit_code :
    (handle_instruction 0 0 (nextByteCode (startOn exitProgram)).2
        (nextByteCode (startOn exitProgram)).1).map (fun m1 => getRegister m1 .EXIT) = .ok 5
    ∧ execute noGarbage 4 exitProgram demoMemory emptyInput = .ok 0 := by
  exact ⟨by decide, by decide⟩

/-- C2: the claim that the `size`-byte compare constant is zero-extended
to 64 bits fails on the code.  `handle_compare_reg_const` dereferences the
freshly allocated `size`-byte buffer as a full `uint64`, so for size 1 the
comparison reads 7 bytes of unspecified heap memory past the allocation:
on a machine with `A = 5` comparing against the 1-byte constant 5, the
heap tail 0 yields `ZERO_FLAG = 1` (the zero-extension answer) while the
heap tail 1 yields `ZERO_FLAG = 0` — the flags are not determined by the
constant bytes. -/
theorem c2_compare_const_reads_unspecified_heap_bytes :
    (handle_compare_reg_const 0 cmpMachine).map (fun m1 => getRegister m1 .ZERO_FLAG) = .ok 1
    ∧ (handle_compare_reg_const 1 cmpMachine).map (fun m1 => getRegister m1 .ZERO_FLAG) = .ok 0 := by
  exact ⟨by decide, by decide⟩

/-- C3: the claim that the dispatcher aborts on `LABEL` (31) or an
unassigned opcode byte fails on the code: the dispatch switch has no
`default` case, so such bytes execute no handler.  On `[31, 44]` the step
succeeds, the machine keeps running with the program counter advanced
past the opcode byte, memory and all other registers unchanged, and the
following step executes the `EXIT` and halts normally; an unassigned
byte (200) behaves the same way. -/
theorem c3_label_and_unknown_opcodes_silently_skipped :
    (runStep 0 0 labelMachine).map
        (fun m1 => (m1.running, getRegister m1 .PROGRAM_COUNTER)) = .ok (true, 1)
    ∧ (runStep 0 0 labelMachine).map Machine.mem = .ok labelMachine.mem
    ∧ (∀ r : Registers, r ≠ .PROGRAM_COUNTER →
        (runStep 0 0 labelMachine).map (fun m1 => getRegister m1 r)
          = .ok (getRegister labelMachine r))
    ∧ ((runStep 0 0 labelMachine).bind (runStep 0 0)).map Machine.running = .ok false
    ∧ (runStep 0 0 unknownMachine).map
        (fun m1 => (m1.running, getRegister m1 .PROGRAM_COUNTER)) = .ok (true, 1) := by
  exact ⟨by decide, by decide, by decide, by decide, by decide⟩

/-- C4 (counterexample): two parts of the claim fail on the code.  At end
of file `handle_input_int` (and `handle_input_string`) set
`ERROR = END_OF_FILE` but return *without* clearing the stream's sticky
failure state — `failbit` and `eofbit` remain set (claim: they are
cleared after every failed input, end of file included).  And on an
unrecoverable stream fault (`badbit`) the handlers set `ERROR = 2`
(`INVALID_INPUT`), not 3 (`GENERIC_ERROR`), because the `fail()` check
also reports bad streams, so the `GENERIC_ERROR` branch never runs. -/
theorem c4_eof_not_cleared_and_bad_stream_not_generic :
    getRegister (handle_input_int (inputMachine emptyInput)) .ERROR = 1
    ∧ (handle_input_int (inputMachine emptyInput)).stdin.failbit = true
    ∧ (handle_input_int (inputMachine emptyInput)).stdin.eofbit = true
    ∧ getRegister (handle_input_int (inputMachine badInput)) .ERROR = 2
    ∧ getRegister (handle_input_string (inputMachine emptyInput)) .ERROR = 1
    ∧ (handle_input_string (inputMachine emptyInput)).stdin.failbit = true := by
  exact ⟨by decide, by decide, by decide, by decide, by decide, by decide⟩

/-- C4 (amended): `INPUT_INT` and `INPUT_STRING` never abort the VM (the
handlers are total) and set `ERROR` as follows.  If the read left
`eofbit` set: `ERROR = 1` and the handler returns with the stream state
untouched — neither cleared nor drained.  Otherwise if the read failed
(`failbit` or `badbit` — including an unrecoverable stream fault, since
`fail()` also reports bad streams, which makes the `ERROR = 3` branch
unreachable): `ERROR = 2`, and the stream state is cleared and the rest
of the line discarded.  Otherwise `ERROR = 0`. -/
theorem c4_input_error_codes_and_stream_state (m : Machine) :
    ((extractU64 m.stdin).1.eofbit = true →
        getRegister (handle_input_int m) .ERROR = 1
        ∧ (handle_input_int m).stdin = (extractU64 m.stdin).1)
    ∧ ((extractU64 m.stdin).1.eofbit = false →
        ((extractU64 m.stdin).1.failbit || (extractU64 m.stdin).1.badbit) = true →
        getRegister (handle_input_int m) .ERROR = 2
        ∧ (handle_input_int m).stdin = cinIgnoreLine (cinClear (extractU64 m.stdin).1))
    ∧ ((extractU64 m.stdin).1.eofbit = false →
        ((extractU64 m.stdin).1.failbit || (extractU64 m.stdin).1.badbit) = false →
        getRegister (handle_input_int m) .ERROR = 0)
    ∧ ((getlineFromStream m.stdin).1.eofbit = true →
        getRegister (handle_input_string m) .ERROR = 1
        ∧ (handle_input_string m).stdin = (getlineFromStream m.stdin).1)
    ∧ ((getlineFromStream m.stdin).1.eofbit = false →
        ((getlineFromStream m.stdin).1.failbit || (getlineFromStream m.stdin).1.badbit) = true →
        getRegister (handle_input_string m) .ERROR = 2
        ∧ (handle_input_string m).stdin = cinIgnoreLine (cinClear (getlineFromStream m.stdin).1))
    ∧ ((getlineFromStream m.stdin).1.eofbit = false →
        ((getlineFromStream m.stdin).1.failbit || (getlineFromStream m.stdin).1.badbit) = false →
        getRegister (handle_input_string m) .ERROR = 0) := by
  rcases hE : extractU64 m.stdin with ⟨s1, vo⟩
  rcases hG : getlineFromStream m.stdin with ⟨t1, line⟩
  refine ⟨fun heof => ?_, fun heof hfail => ?_, fun heof hfail => ?_,
    fun heof => ?_, fun heof hfail => ?_, fun heof hfail => ?_⟩
  · simp only at heof
    unfold handle_input_int
    rw [hE]
    cases vo <;>
      simp [cinEofFlag, cinFailFlag, cinBadFlag, heof,
        getRegister_setRegister, setRegister_stdin, getRegister_updateStdin]
  · simp only at heof hfail
    have hf2 : s1.failbit = true ∨ s1.badbit = true := by
      rcases Bool.or_eq_true_iff.mp hfail with h | h
      · exact Or.inl h
      · exact Or.inr h
    unfold handle_input_int
    rw [hE]
    cases vo <;>
      simp [cinEofFlag, cinFailFlag, cinBadFlag, heof, hf2, hfail,
        getRegister_setRegister, setRegister_stdin, getRegister_updateStdin]
  · simp only at heof hfail
    have hf : s1.failbit = false := (Bool.or_eq_false_iff.mp hfail).1
    have hb : s1.badbit = false := (Bool.or_eq_false_iff.mp hfail).2
    unfold handle_input_int
    rw [hE]
    cases vo <;>
      simp [cinEofFlag, cinFailFlag, cinBadFlag, heof, hf, hb,
        getRegister_setRegister, setRegister_stdin, getRegister_updateStdin]
  · simp only at heof
    unfold handle_input_string
    rw [hG]
    simp [cinEofFlag, cinFailFlag, cinBadFlag, heof,
      getRegister_setRegister, setRegister_stdin, getRegister_updateStdin]
  · simp only at heof hfail
    have hf2 : t1.failbit = true ∨ t1.badbit = true := by
      rcases Bool.or_eq_true_iff.mp hfail with h | h
      · exact Or.inl h
      · exact Or.inr h
    unfold handle_input_string
    rw [hG]
    simp [cinEofFlag, cinFailFlag, cinBadFlag, heof, hf2, hfail,
      getRegister_setRegister, setRegister_stdin, getRegister_updateStdin]
  · simp only at heof hfail
    have hf : t1.failbit = false := (Bool.or_eq_false_iff.mp hfail).1
    have hb : t1.badbit = false := (Bool.or_eq_false_iff.mp hfail).2
    unfold handle_input_string
    rw [hG]
    simp [cinEofFlag, cinFailFlag, cinBadFlag, heof, hf, hb,
      getRegister_setRegister, setRegister_stdin, getRegister_updateStdin,
      getRegister_pushStackBytes_ne]

/-- C4 (witness): the amended theorem instantiated on a machine reading
the line `42`: the read succeeds and `ERROR = 0`. -/
theorem c4_witness :
    getRegister (handle_input_int (inputMachine numberInput)) .ERROR = 0 :=
  (c4_input_error_codes_and_stream_state (inputMachine numberInput)).2.2.1
    (by decide) (by decide)

/-- C5 (counterexample): after the `EXIT` instruction the `EXIT` register
does not retain the value the guest stored.  The guest stored 5 (first
conjunct: the storing handler leaves 5 in `EXIT`), yet at the boundary
after the `EXIT` instruction the machine is halted with `EXIT = 0`. -/
theorem c5_exit_not_retained_after_exit_instruction :
    (handle_instruction 0 0 (nextByteCode (startOn exitProgram)).2
        (nextByteCode (startOn exitProgram)).1).map
        (fun m1 => getRegister m1 .EXIT) = .ok 5
    ∧ (handle_instruction 0 0 (nextByteCode (startOn exitProgram)).2
        (nextByteCode (startOn exitProgram)).1).bind
        (fun m1 => (runStep 0 0 (clearVolatileRegisters m1)).map
          (fun m2 => (m2.running, getRegister m2 .EXIT))) = .ok (false, 0) := by
  exact ⟨by decide, by decide⟩

/-- C5 (amended): at every instruction boundary — any successful
`runStep`, whatever the instruction, `EXIT` included — the `EXIT`
register is 0, because `clearVolatileRegisters` runs unconditionally
after every handler. -/
theorem c5_exit_zero_at_every_boundary (garbageA garbageB : Nat) (m : Machine) :
    (runStep garbageA garbageB m).map (fun m1 => getRegister m1 .EXIT)
      = (runStep garbageA garbageB m).map (fun _ => 0) := by
  unfold runStep
  cases handle_instruction garbageA garbageB (nextByteCode m).2 (nextByteCode m).1 <;>
    simp [Except.map, clearVolatileRegisters, getRegister_setRegister]

/-- C5 (witness): the boundary invariant instantiated at the first step
of the exit program. -/
theorem c5_witness :
    (runStep 0 0 (startOn exitProgram)).map (fun m1 => getRegister m1 .EXIT)
      = (runStep 0 0 (startOn exitProgram)).map (fun _ => 0) :=
  c5_exit_zero_at_every_boundary 0 0 (startOn exitProgram)

/-- C6 (counterexample): on overlapping ranges the memory-to-memory move
does not produce the contents of an in-place forward byte-by-byte copy.
With bytes 7, 8, 9 at addresses 17, 18, 19, copying 2 bytes from 17 to 18
leaves 8 at address 19 (the handler writes a snapshot of the original
source bytes), while the forward in-place copy of the claim leaves 7
there. -/
theorem c6_overlapping_move_is_not_forward_copy :
    Memory.getByte (handle_move_into_addr_literal_from_addr_literal overlapMachine).mem 19 = 8
    ∧ Memory.getByte (specForwardCopy overlapMachine.mem 18 17 2) 19 = 7 := by
  exact ⟨by decide, by decide⟩

/-- C6 (amended): the memory-to-memory move copies a snapshot of the
source range.  For `MOVE_INTO_ADDR_LITERAL_FROM_ADDR_LITERAL` with size
byte `n`, literal destination `d` and literal source `s` (decoded from
the bytecode at the program counter), every byte of the destination range
receives the *pre-instruction* contents of the source range — memmove
semantics, also on overlap — and every byte outside the destination
range is unchanged. -/
theorem c6_move_copies_source_snapshot (m : Machine) (n d s : Nat)
    (hpc : getRegister m .PROGRAM_COUNTER + 17 < 2 ^ 64)
    (hn : Memory.getByte m.mem (getRegister m .PROGRAM_COUNTER) = n)
    (hd : leVal (Memory.getBytes m.mem (getRegister m .PROGRAM_COUNTER + 1) 8) = d)
    (hs : leVal (Memory.getBytes m.mem (getRegister m .PROGRAM_COUNTER + 9) 8) = s)
    (hsb : s + n ≤ m.mem.length) (hdb : d + n ≤ m.mem.length) :
    ∀ i, Memory.getByte (handle_move_into_addr_literal_from_addr_literal m).mem i
      = if d ≤ i ∧ i < d + n then Memory.getByte m.mem (s + (i - d))
        else Memory.getByte m.mem i := by
  intro i
  have h1 : (getRegister m .PROGRAM_COUNTER + 1) % 2 ^ 64
      = getRegister m .PROGRAM_COUNTER + 1 := Nat.mod_eq_of_lt (by omega)
  have h9 : (getRegister m .PROGRAM_COUNTER + 1 + 8) % 2 ^ 64
      = getRegister m .PROGRAM_COUNTER + 9 := by omega
  have hmem : (handle_move_into_addr_literal_from_addr_literal m).mem
      = Memory.setBytes m.mem d (Memory.getBytes m.mem s n) := by
    unfold handle_move_into_addr_literal_from_addr_literal nextByteCode
      addressFromByteCode nextByteCodeN
    simp only [getRegister_setRegister, setRegister_mem, if_pos rfl, if_true, h1, h9,
      bytesToUint64_getBytes8_zero, hn, hd, hs]
  rw [hmem, getByte_setBytes _ _ _ _ (by rw [length_getBytes _ _ _ hsb]; exact hdb),
    length_getBytes _ _ _ hsb]
  by_cases hcond : d ≤ i ∧ i < d + n
  · rw [if_pos hcond, if_pos hcond, getD_getBytes _ _ _ _ (by omega)]
  · rw [if_neg hcond, if_neg hcond]

/-- C6 (witness): the snapshot-copy theorem instantiated on the
overlapping-range machine at the destination byte 19. -/
theorem c6_witness :
    Memory.getByte (handle_move_into_addr_literal_from_addr_literal overlapMachine).mem 19
      = if 18 ≤ 19 ∧ 19 < 18 + 2 then Memory.getByte overlapMachine.mem (17 + (19 - 18))
        else Memory.getByte overlapMachine.mem 19 :=
  c6_move_copies_source_snapshot overlapMachine 2 18 17 (by decide) (by decide)
    (by decide) (by decide) (by decide) (by decide) 19

/-- C7: stack round trip.  For every machine whose stack pointer is a
valid `uint64` value and every byte list, pushing the bytes and then
popping the same count returns `STACK_POINTER` to its pre-push value
(first conjunct); and the concrete guest that loads `A = 0xDEADBEEF`,
pushes `A`, overwrites `A` with 0 and pops back into `A` ends with
`A = 0xDEADBEEF` again and the stack pointer back at the program size 27
(second conjunct). -/
theorem c7_stack_push_pop_roundtrip :
    (∀ (m : Machine) (bytes : List Nat), getRegister m .STACK_POINTER < 2 ^ 64 →
      getRegister (popStackBytes (pushStackBytes m bytes) bytes.length).1 .STACK_POINTER
        = getRegister m .STACK_POINTER)
    ∧ (run noGarbage 6 (startOn stackProgram)).map
        (fun m1 => (getRegister m1 .A, getRegister m1 .STACK_POINTER))
      = .ok (3735928559, 27) := by
  refine ⟨fun m bytes h => ?_, by decide⟩
  unfold popStackBytes pushStackBytes
  simp [getRegister_setRegister, getRegister_updateMem]
  omega

/-- C7 (witness): the round-trip instantiated on the machine at the top
of the stack program's run, pushing four bytes. -/
theorem c7_witness :
    getRegister (startOn stackProgram) .STACK_POINTER < 2 ^ 64
    ∧ getRegister
        (popStackBytes (pushStackBytes (startOn stackProgram) [1, 2, 3, 4]) 4).1
        .STACK_POINTER
      = getRegister (startOn stackProgram) .STACK_POINTER :=
  ⟨by decide, c7_stack_push_pop_roundtrip.1 (startOn stackProgram) [1, 2, 3, 4] (by decide)⟩

/-- C8: `SUB` computes `A - B` with unsigned 64-bit wrap-around; the sign
flag is set exactly when the result read as a signed 64-bit integer is
negative (equivalently, when the result is at least `2 ^ 63`), the zero
flag exactly when the result is 0; with `A = 3`, `B = 5` the result is
`2 ^ 64 - 2` with `SIGN_FLAG = 1` and `ZERO_FLAG = 0`. -/
theorem c8_sub_wraparound_and_flags :
    (∀ m : Machine, getRegister m .B < 2 ^ 64 →
      getRegister (handle_sub m) .A
          = (getRegister m .A + (2 ^ 64 - getRegister m .B)) % 2 ^ 64
        ∧ (getRegister (handle_sub m) .SIGN_FLAG
            = if toInt64 (getRegister (handle_sub m) .A) < 0 then 1 else 0)
        ∧ (getRegister (handle_sub m) .SIGN_FLAG
            = if 2 ^ 63 ≤ getRegister (handle_sub m) .A then 1 else 0)
        ∧ (getRegister (handle_sub m) .ZERO_FLAG
            = if getRegister (handle_sub m) .A = 0 then 1 else 0))
    ∧ getRegister (handle_sub demoSubMachine) .A = 2 ^ 64 - 2
    ∧ getRegister (handle_sub demoSubMachine) .SIGN_FLAG = 1
    ∧ getRegister (handle_sub demoSubMachine) .ZERO_FLAG = 0 := by
  refine ⟨fun m hB => ?_, by decide, by decide, by decide⟩
  have hA : getRegister (handle_sub m) .A = u64sub (getRegister m .A) (getRegister m .B) := by
    unfold handle_sub setArithmeticalFlags
    simp [getRegister_setRegister, u64sub]
  have hAlt : getRegister (handle_sub m) .A < 2 ^ 64 := by
    rw [hA]; exact u64sub_lt _ _
  have hsign : getRegister (handle_sub m) .SIGN_FLAG
      = if toInt64 (getRegister (handle_sub m) .A) < 0 then 1 else 0 := by
    unfold handle_sub setArithmeticalFlags
    simp [getRegister_setRegister]
    split <;> simp
  have hzero : getRegister (handle_sub m) .ZERO_FLAG
      = if toInt64 (getRegister (handle_sub m) .A) = 0 then 1 else 0 := by
    unfold handle_sub setArithmeticalFlags
    simp [getRegister_setRegister]
    split <;> simp
  refine ⟨?_, hsign, ?_, ?_⟩
  · rw [hA, u64sub_of_lt _ _ hB]
  · rw [hsign]
    simp only [toInt64_neg_iff _ hAlt]
  · rw [hzero]
    simp only [toInt64_eq_zero_iff _ hAlt]

/-- C8 (witness): the general part instantiated at the `A = 3`, `B = 5`
machine. -/
theorem c8_witness :
    getRegister demoSubMachine .B < 2 ^ 64
    ∧ getRegister (handle_sub demoSubMachine) .A
        = (getRegister demoSubMachine .A + (2 ^ 64 - getRegister demoSubMachine .B)) % 2 ^ 64 :=
  ⟨by decide, (c8_sub_wraparound_and_flags.1 demoSubMachine (by decide)).1⟩

/-- C9: when `INPUT_INT` fails at end of file or on a token that does not
start with a digit, the failed extraction writes 0 into `INPUT` (C++11
formatted-extraction semantics) before `ERROR` is set — whatever value
`INPUT` held before is lost, and the resulting `ERROR` is non-zero. -/
theorem c9_failed_input_int_overwrites_input_with_zero (m : Machine)
    (h1 : m.stdin.eofbit = false) (h2 : m.stdin.failbit = false)
    (h3 : m.stdin.badbit = false) (h4 : m.stdin.pendingBad = false)
    (hfail : m.stdin.chars.dropWhile isStreamWS = []
      ∨ (m.stdin.chars.dropWhile isStreamWS ≠ []
          ∧ isDigitChar ((m.stdin.chars.dropWhile isStreamWS).headD 0) = false)) :
    getRegister (handle_input_int m) .INPUT = 0
    ∧ getRegister (handle_input_int m) .ERROR ≠ 0 := by
  rcases hsd : m.stdin with ⟨chars, eb, fb, bb, pb⟩
  rw [hsd] at h1 h2 h3 h4 hfail
  simp only at h1 h2 h3 h4 hfail
  subst h1 h2 h3 h4
  unfold handle_input_int extractU64
  rw [hsd]
  simp only [Bool.or_self, Bool.false_or, Bool.false_eq_true, if_false, ite_false]
  rcases hfail with hnil | ⟨hne, hnd⟩
  · rw [hnil]
    simp [cinEofFlag, cinFailFlag, cinBadFlag, getRegister_setRegister,
      getRegister_updateStdin]
  · rcases hcs : chars.dropWhile isStreamWS with _ | ⟨c, cs⟩
    · exact absurd hcs hne
    · rw [hcs] at hnd
      simp only [List.headD_cons] at hnd
      simp [hnd, cinEofFlag, cinFailFlag, cinBadFlag, getRegister_setRegister,
        getRegister_updateStdin]

/-- C9 (witness): a machine with `INPUT = 99` reading the non-numeric
token `abc` ends with `INPUT = 0` and a non-zero `ERROR`. -/
theorem c9_witness :
    getRegister (handle_input_int (setRegister (inputMachine abcInput) .INPUT 99)) .INPUT = 0
    ∧ getRegister (handle_input_int (setRegister (inputMachine abcInput) .INPUT 99)) .ERROR ≠ 0 :=
  c9_failed_input_int_overwrites_input_with_zero
    (setRegister (inputMachine abcInput) .INPUT 99)
    (by decide) (by decide) (by decide) (by decide) (Or.inr ⟨by decide, by decide⟩)

/-- C10: whenever `INPUT_STRING` fails (any of `eofbit`, `failbit`,
`badbit` set after the `getline`), the handler changes no register other
than `ERROR` — `INPUT` and `STACK_POINTER` included — and leaves memory
untouched: the length store and the stack push run only on the success
path. -/
theorem c10_failed_input_string_touches_only_error (m : Machine)
    (hfail : (getlineFromStream m.stdin).1.eofbit = true
      ∨ (getlineFromStream m.stdin).1.failbit = true
      ∨ (getlineFromStream m.stdin).1.badbit = true) :
    (∀ r : Registers, r ≠ .ERROR → getRegister (handle_input_string m) r = getRegister m r)
    ∧ (handle_input_string m).mem = m.mem := by
  rcases hG : getlineFromStream m.stdin with ⟨t1, line⟩
  rw [hG] at hfail
  simp only at hfail
  unfold handle_input_string
  rw [hG]
  by_cases heof : t1.eofbit = true
  · refine ⟨fun r hr => ?_, ?_⟩
    · simp [cinEofFlag, heof, getRegister_setRegister, getRegister_updateStdin, hr]
    · simp [cinEofFlag, heof, setRegister_mem, mem_updateStdin]
  · by_cases hfb : (t1.failbit || t1.badbit) = true
    · refine ⟨fun r hr => ?_, ?_⟩
      · simp [cinEofFlag, cinFailFlag, heof, hfb, getRegister_setRegister,
          getRegister_updateStdin, hr]
      · simp [cinEofFlag, cinFailFlag, heof, hfb, setRegister_mem, mem_updateStdin]
    · exfalso
      rcases hfail with h | h | h
      · exact heof h
      · exact hfb (by simp [h])
      · exact hfb (by simp [h])

/-- C10 (witness): at end of file, `INPUT` and `STACK_POINTER` and memory
are unchanged by `INPUT_STRING`. -/
theorem c10_witness :
    getRegister (handle_input_string (inputMachine emptyInput)) .INPUT
        = getRegister (inputMachine emptyInput) .INPUT
    ∧ getRegister (handle_input_string (inputMachine emptyInput)) .STACK_POINTER
        = getRegister (inputMachine emptyInput) .STACK_POINTER
    ∧ (handle_input_string (inputMachine emptyInput)).mem = (inputMachine emptyInput).mem :=
  ⟨(c10_failed_input_string_touches_only_error (inputMachine emptyInput)
      (Or.inl (by decide))).1 .INPUT (by decide),
   (c10_failed_input_string_touches_only_error (inputMachine emptyInput)
      (Or.inl (by decide))).1 .STACK_POINTER (by decide),
   (c10_failed_input_string_touches_only_error (inputMachine emptyInput)
      (Or.inl (by decide))).2⟩

end RustyVM
